import Mathlib

/-!
Verification of the agent messaging core (`agent_messaging.py`): the Envelope
record and its wire codec, the subject (topic) scheme, the router, the
per-agent inbox processor with its default echo handler, and the viewer.
Python strings are modelled as Lean `String`, dictionaries produced and
consumed by the codec as association lists, and the effects of a call
(publishes, history appends) as explicit lists so that ordering and failure
behaviour can be stated.
-/

namespace AgentMessaging

/-- Default value of the `NATS_NAMESPACE` environment variable (line 26 of the source). -/
def NATS_NAMESPACE : String := "themultiverse"

/-- The `Message` dataclass (lines 43-52): id, from_user, to_user, content,
timestamp, message_type (default "dm") and optional thread_id. -/
structure Message where
  id : String
  from_user : String
  to_user : String
  content : String
  timestamp : String
  message_type : String := "dm"
  thread_id : Option String := none
deriving DecidableEq, Repr

/-- Primitive JSON values occurring in this codec: strings and null. -/
inductive JPrim where
  | str (s : String) : JPrim
  | null : JPrim
deriving DecidableEq, Repr

/-- JSON values restricted to the flat shapes this program serializes and
parses: primitives and one-level objects whose values are primitives.
This models the Python `json` module on exactly the payload shapes the
codec produces (`asdict` of the flat dataclass). -/
inductive Json where
  | prim (p : JPrim) : Json
  | obj (kvs : List (String × JPrim)) : Json
deriving DecidableEq, Repr

/-- The dictionary produced by `Message.to_dict` (line 54-55, `asdict`):
every field of the dataclass, in declaration order; `None` becomes null. -/
def Message.to_dict (m : Message) : List (String × JPrim) :=
  [ ("id", JPrim.str m.id),
    ("from_user", JPrim.str m.from_user),
    ("to_user", JPrim.str m.to_user),
    ("content", JPrim.str m.content),
    ("timestamp", JPrim.str m.timestamp),
    ("message_type", JPrim.str m.message_type),
    ("thread_id", match m.thread_id with
      | some t => JPrim.str t
      | none => JPrim.null) ]

/-- First value bound to a key in a dictionary. -/
def lookupKey (d : List (String × JPrim)) (k : String) : Option JPrim :=
  (d.find? (fun p => p.fst == k)).map Prod.snd

/-- Parameter names accepted by the `Message` constructor. -/
def messageFields : List String :=
  ["id", "from_user", "to_user", "content", "timestamp", "message_type", "thread_id"]

/-- The classmethod `Message.from_dict` (lines 57-59), `cls(**data)`: every key
of the dictionary must be a constructor parameter, the five fields without
defaults must be present, and the optional fields fall back to their dataclass
defaults when absent. Fields are typed per the dataclass annotations; a value
of the wrong shape is a decode error. -/
def Message.from_dict (d : List (String × JPrim)) : Option Message :=
  if d.all (fun p => messageFields.contains p.fst) then
    match lookupKey d "id", lookupKey d "from_user", lookupKey d "to_user",
          lookupKey d "content", lookupKey d "timestamp" with
    | some (JPrim.str i), some (JPrim.str f), some (JPrim.str t),
      some (JPrim.str c), some (JPrim.str ts) =>
        let mt : Option String :=
          match lookupKey d "message_type" with
          | some (JPrim.str s) => some s
          | none => some "dm"
          | some JPrim.null => none
        let th : Option (Option String) :=
          match lookupKey d "thread_id" with
          | some (JPrim.str s) => some (some s)
          | some JPrim.null => some none
          | none => some none
        match mt, th with
        | some mt, some th =>
            some { id := i, from_user := f, to_user := t, content := c,
                   timestamp := ts, message_type := mt, thread_id := th }
        | _, _ => none
    | _, _, _, _, _ => none
  else none

/-! Subject scheme (section 4.1 of the design): the topic strings built by
f-strings at lines 70-71, 131, 134, 198 and 205 of the source. -/

/-- Topic of an agent inbox: `<ns>.agents.<agent>.inbox` (line 70). -/
def inbox_subject (ns agent : String) : String :=
  ns ++ ".agents." ++ agent ++ ".inbox"

/-- Topic of an agent outbox: `<ns>.agents.<agent>.outbox` (line 71). -/
def outbox_subject (ns agent : String) : String :=
  ns ++ ".agents." ++ agent ++ ".outbox"

/-- Human-directed topic: `<ns>.messages.dm.<user>` (line 134). -/
def dm_subject (ns user : String) : String :=
  ns ++ ".messages.dm." ++ user

/-- Global feed topic: `<ns>.messages.all` (line 205). -/
def all_subject (ns : String) : String :=
  ns ++ ".messages.all"

/-! Wire codec: `json.dumps(message.to_dict())` encodes, `json.loads` plus
`Message.from_dict` decodes. The Python `json` module is modelled
character-for-character on the flat shapes above: objects are rendered with
the default separators (a comma-space between items, a colon-space after a
key) and string escaping covers the two structural characters (the quote and
the backslash); the parser is its inverse on these payloads and rejects
anything else. -/

/-- Quote character. -/
def qchar : Char := Char.ofNat 34

/-- Backslash character. -/
def bslash : Char := Char.ofNat 92

/-- Opening curly bracket. -/
def lbrace : Char := Char.ofNat 123

/-- Closing curly bracket. -/
def rbrace : Char := Char.ofNat 125

/-- Escaping of one character inside a JSON string literal. -/
def escapeChar (c : Char) : List Char :=
  if c = qchar ∨ c = bslash then [bslash, c] else [c]

/-- Escaping of a whole string body. -/
def escapeList (l : List Char) : List Char :=
  l.flatMap escapeChar

/-- Serialization of a primitive JSON value. -/
def serializePrim : JPrim → List Char
  | JPrim.str s => qchar :: (escapeList s.data ++ [qchar])
  | JPrim.null => ['n', 'u', 'l', 'l']

/-- Serialization of one `"key": value` object entry. -/
def serializeEntry (kv : String × JPrim) : List Char :=
  qchar :: (escapeList kv.fst.data ++ qchar :: ':' :: ' ' :: serializePrim kv.snd)

/-- Serialization of the comma-separated entry list of an object. -/
def serializeEntries : List (String × JPrim) → List Char
  | [] => []
  | [kv] => serializeEntry kv
  | kv :: rest => serializeEntry kv ++ ',' :: ' ' :: serializeEntries rest

/-- Serialization of a JSON value, `json.dumps`. -/
def json_dumps : Json → List Char
  | Json.prim p => serializePrim p
  | Json.obj kvs => lbrace :: (serializeEntries kvs ++ [rbrace])

/-- Parsing of a string-literal body up to the closing quote; returns the
unescaped characters and the rest of the input. -/
def parseStringBody : List Char → Option (List Char × List Char)
  | [] => none
  | c :: rest =>
    if c = qchar then some ([], rest)
    else if c = bslash then
      match rest with
      | [] => none
      | d :: rest2 =>
        match parseStringBody rest2 with
        | some (s, rem) => some (d :: s, rem)
        | none => none
    else
      match parseStringBody rest with
      | some (s, rem) => some (c :: s, rem)
      | none => none

/-- Parsing of a primitive JSON value. -/
def parsePrim : List Char → Option (JPrim × List Char)
  | [] => none
  | c :: rest =>
    if c = qchar then
      match parseStringBody rest with
      | some (s, rem) => some (JPrim.str (String.mk s), rem)
      | none => none
    else if c = 'n' then
      match rest with
      | a :: b :: d :: rem =>
        if a = 'u' ∧ b = 'l' ∧ d = 'l' then some (JPrim.null, rem) else none
      | _ => none
    else none

/-- Parsing of one `"key": value` entry. -/
def parseEntry (cs : List Char) : Option ((String × JPrim) × List Char) :=
  match cs with
  | [] => none
  | c :: rest =>
    if c = qchar then
      match parseStringBody rest with
      | some (k, rem) =>
        match rem with
        | a :: b :: rem2 =>
          if a = ':' ∧ b = ' ' then
            match parsePrim rem2 with
            | some (v, rem3) => some ((String.mk k, v), rem3)
            | none => none
          else none
        | _ => none
      | none => none
    else none

/-- Parsing of a nonempty comma-separated entry list, up to and including the
closing bracket; the fuel bounds the number of entries. -/
def parseEntriesAux (fuel : Nat) (cs : List Char) :
    Option (List (String × JPrim) × List Char) :=
  match parseEntry cs with
    | none => none
    | some (kv, rem) =>
      match rem with
      | [] => none
      | [c] => if c = rbrace then some ([kv], []) else none
      | c1 :: c2 :: rem2 =>
        if c1 = ',' ∧ c2 = ' ' then
          match fuel with
          | 0 => none
          | fuel' + 1 =>
            match parseEntriesAux fuel' rem2 with
            | some (kvs, rem3) => some (kv :: kvs, rem3)
            | none => none
        else if c1 = rbrace then some ([kv], c2 :: rem2)
        else none

/-- Parsing of a JSON object starting at the opening bracket. -/
def parseObj (cs : List Char) : Option (List (String × JPrim) × List Char) :=
  match cs with
  | [] => none
  | c :: rest =>
    if c = lbrace then
      match rest with
      | [] => none
      | d :: rest2 =>
        if d = rbrace then some ([], rest2)
        else parseEntriesAux rest.length rest
    else none

/-- Parsing of a complete JSON document, `json.loads`: the whole input must be
consumed. -/
def json_loads (cs : List Char) : Option Json :=
  match cs with
  | [] => none
  | c :: _ =>
    if c = lbrace then
      match parseObj cs with
      | some (kvs, []) => some (Json.obj kvs)
      | _ => none
    else
      match parsePrim cs with
      | some (p, []) => some (Json.prim p)
      | _ => none

/-- Wire encoding of a message: `json.dumps(message.to_dict())` (lines 199,
205, 136, 139 of the source all use this composition). -/
def encode_message (m : Message) : List Char :=
  json_dumps (Json.obj m.to_dict)

/-- Wire decoding of a payload: `Message.from_dict(json.loads(data))`
(lines 101-102, 217-218, 269-270 of the source). -/
def decode_message (cs : List Char) : Option Message :=
  match json_loads cs with
  | some (Json.obj d) => Message.from_dict d
  | _ => none

/-! Router (`MessageRouter`, lines 157-232). A publish is a subject plus the
encoded payload; `send_dm` performs its three effects in program order, so
the effects are modelled as an explicit list and executed against a bus on
which some publishes may fail. -/

/-- One publish on the bus. -/
structure Publish where
  subject : String
  payload : List Char
deriving DecidableEq, Repr

/-- One side effect of `send_dm`, in program order. -/
inductive Effect where
  | publish (subject : String) (payload : List Char) : Effect
  | appendHistory (m : Message) : Effect
deriving DecidableEq, Repr

/-- State of a `MessageRouter` (line 165): the append-only in-memory history. -/
structure MessageRouter where
  message_history : List Message := []
deriving DecidableEq, Repr

/-- The envelope built by `send_dm` (lines 189-195): id and timestamp are
derived from the wall clock, passed here explicitly as `ts`; the recipient is
stored agent-prefixed. -/
def dm_message (ts from_user to_agent content : String) : Message :=
  { id := "msg_" ++ ts, from_user := from_user, to_user := "agent_" ++ to_agent,
    content := content, timestamp := ts }

/-- Effects of `MessageRouter.send_dm` (lines 197-205) in program order:
publish to the agent inbox, append to the history, publish to the global
feed. -/
def send_dm_effects (ns ts from_user to_agent content : String) : List Effect :=
  [ Effect.publish (inbox_subject ns to_agent)
      (encode_message (dm_message ts from_user to_agent content)),
    Effect.appendHistory (dm_message ts from_user to_agent content),
    Effect.publish (all_subject ns)
      (encode_message (dm_message ts from_user to_agent content)) ]

/-- Execution of a list of effects against a bus on which publishing to a
subject with `fails` true raises `PublishFailure`. Returns the router state
when the run stops, the publishes that reached the bus, and whether a failure
was raised; a failure aborts the remaining effects, as the Python exception
would, and rolls nothing back. -/
def runEffects (fails : String → Bool) :
    MessageRouter → List Effect → MessageRouter × List Publish × Bool
  | r, [] => (r, [], false)
  | r, Effect.publish s p :: rest =>
    if fails s then (r, [], true)
    else
      let out := runEffects fails r rest
      (out.1, ⟨s, p⟩ :: out.2.1, out.2.2)
  | r, Effect.appendHistory m :: rest =>
    runEffects fails { message_history := r.message_history ++ [m] } rest

/-- The call `router.send_dm(from_user, to_agent, content)` (lines 184-208)
on a bus where publishes to subjects with `fails` true raise. -/
def send_dm (fails : String → Bool) (r : MessageRouter)
    (ns ts from_user to_agent content : String) :
    MessageRouter × List Publish × Bool :=
  runEffects fails r (send_dm_effects ns ts from_user to_agent content)

/-- The method `MessageRouter.get_conversation` (lines 226-232): linear scan
of the history for envelopes between the two users, in either direction. -/
def get_conversation (r : MessageRouter) (user1 user2 : String) : List Message :=
  r.message_history.filter (fun msg =>
    (msg.from_user == user1 && msg.to_user == user2)
    || (msg.from_user == user2 && msg.to_user == user1))

/-! Agent inbox processor (`AgentMessageQueue`, lines 62-154). -/

/-- Character list of the reserved agent prefix. -/
def agentChars : List Char := "agent_".data

/-- Python `to_user.startswith("agent_")` (line 129). -/
def startsWithAgent (s : String) : Bool :=
  s.data.take 6 == agentChars

/-- Python `to_user.replace("agent_", "")` (line 130): removes every
occurrence of the reserved prefix, scanning left to right, not only a
leading one. -/
def replaceAgentList : List Char → List Char
  | c1 :: c2 :: c3 :: c4 :: c5 :: c6 :: rest =>
    if c1 :: c2 :: c3 :: c4 :: c5 :: [c6] = agentChars then replaceAgentList rest
    else c1 :: replaceAgentList (c2 :: c3 :: c4 :: c5 :: c6 :: rest)
  | [] => []
  | c :: rest => c :: replaceAgentList rest

/-- Whether the reserved prefix occurs anywhere in the character list. -/
def hasAgentOccur : List Char → Bool
  | [] => false
  | c :: rest => (List.take 6 (c :: rest) == agentChars) || hasAgentOccur rest

/-- Destination-topic resolution of `AgentMessageQueue.send_message`
(lines 128-134): the inbox of the stripped recipient when `to_user` carries
the agent prefix, else the human-directed topic. The stripping is the
replace-all above, exactly as the source does it. -/
def resolve_dest (ns to_user : String) : String :=
  if startsWithAgent to_user then
    inbox_subject ns (String.mk (replaceAgentList to_user.data))
  else dm_subject ns to_user

/-- Destination reading written from the words of the specification, kept
clearly apart from `resolve_dest` (which follows the code) so the two can be
compared: the recipient agent id is `to` with the leading reserved prefix
removed, nothing more. -/
def resolve_dest_strip_prefix (ns to_user : String) : String :=
  if startsWithAgent to_user then
    inbox_subject ns (String.mk (to_user.data.drop 6))
  else dm_subject ns to_user

/-- The method `AgentMessageQueue.send_message` (lines 114-141): builds the
envelope with this persona's agent-prefixed id as sender, then performs two
publishes: one to the resolved destination, one (unconditionally) to this
persona's own outbox. -/
def send_message (ns agent_name ts to_user content : String)
    (thread_id : Option String) : Message × List Publish :=
  let message : Message :=
    { id := "msg_" ++ ts, from_user := "agent_" ++ agent_name, to_user := to_user,
      content := content, timestamp := ts, thread_id := thread_id }
  (message,
   [ ⟨resolve_dest ns to_user, encode_message message⟩,
     ⟨outbox_subject ns agent_name, encode_message message⟩ ])

/-- Single-quote character. -/
def squote : Char := Char.ofNat 39

/-- Echo text built by `default_message_handler` (line 148): the agent name
and the first 50 characters of the received content. -/
def echo_content (agent_name : String) (m : Message) : String :=
  "Agent " ++ agent_name ++ " received your message: " ++ String.mk [squote]
    ++ String.mk (m.content.data.take 50) ++ "..." ++ String.mk [squote]

/-- The reply produced by `default_message_handler` (lines 143-149): an echo
of the received content sent back to `message.from_user`, threading the
incoming `thread_id`. -/
def default_reply (ns agent_name ts : String) (m : Message) : Message × List Publish :=
  send_message ns agent_name ts m.from_user (echo_content agent_name m) m.thread_id

/-- The chain of envelopes produced when agents `a` and `b` both run the
default echo handler and the initial envelope `m0` is delivered to `b`:
entry `n + 1` is the automatic reply generated upon delivery of entry `n`,
handlers alternating with `b` first. The wall clock is passed in as `ts`. -/
def echo_chain (ns a b : String) (ts : Nat → String) (m0 : Message) : Nat → Message
  | 0 => m0
  | n + 1 =>
    (default_reply ns (if n % 2 = 0 then b else a) (ts n) (echo_chain ns a b ts m0 n)).1

/-! Viewer (`MessageViewer`, lines 235-298) and bus wildcard delivery. -/

/-- Tokenization of a subject at the dots, as the bus does for matching. -/
def splitOnDot : List Char → List (List Char)
  | [] => [[]]
  | c :: rest =>
    if c = '.' then [] :: splitOnDot rest
    else
      match splitOnDot rest with
      | t :: ts => (c :: t) :: ts
      | [] => [[c]]

/-- NATS wildcard matching of a pattern token list against a subject token
list: a `*` token matches exactly one subject token and a final `>` token
matches one or more remaining subject tokens. -/
def matchTokens : List (List Char) → List (List Char) → Bool
  | [], [] => true
  | [], _ :: _ => false
  | _ :: _, [] => false
  | p :: ps, t :: ts =>
    if p = ['>'] ∧ ps = [] then true
    else ((p == ['*']) || (p == t)) && matchTokens ps ts

/-- Whether a subscription pattern matches a subject. -/
def subject_matches (pattern subject : String) : Bool :=
  matchTokens (splitOnDot pattern.data) (splitOnDot subject.data)

/-- The three wildcard subscriptions installed by `start_viewing`
(lines 283-285). -/
def viewer_subscriptions (ns : String) : List String :=
  [ ns ++ ".messages.>", ns ++ ".agents.*.inbox", ns ++ ".agents.*.outbox" ]

/-- State of a `MessageViewer` (line 243): the accumulator. -/
structure MessageViewer where
  messages : List Message := []
deriving DecidableEq, Repr

/-- The viewer callback of `start_viewing` (lines 267-280): decode and
append; a failure is caught, logged, and leaves the accumulator unchanged. -/
def viewer_message_callback (v : MessageViewer) (payload : List Char) : MessageViewer :=
  match decode_message payload with
  | some m => { messages := v.messages ++ [m] }
  | none => v

/-- Payload deliveries one publish generates at the viewer: one callback
invocation per subscription whose pattern matches the published subject. -/
def viewer_deliveries (ns : String) (p : Publish) : List (List Char) :=
  (viewer_subscriptions ns).filterMap
    (fun pat => if subject_matches pat p.subject then some p.payload else none)

/-- Folding all deliveries of one publish into the viewer. -/
def viewer_receive_publish (ns : String) (v : MessageViewer) (p : Publish) :
    MessageViewer :=
  (viewer_deliveries ns p).foldl viewer_message_callback v

/-- Folding a sequence of publishes into the viewer. -/
def viewer_receive_all (ns : String) (v : MessageViewer) (ps : List Publish) :
    MessageViewer :=
  ps.foldl (viewer_receive_publish ns) v

/-- The method `get_all_messages` (lines 289-291). -/
def get_all_messages (v : MessageViewer) : List Message :=
  v.messages

/-! Listener lifecycle (section 4.3) and the decode-failure policy shared by
the three subscribed callbacks (lines 99-109, 215-221, 267-280): every
callback body runs inside a try block, so a decode failure is logged, the
message is dropped, and the subscription keeps running. -/

/-- Lifecycle states of a subscribed component. -/
inductive ListenerStatus where
  | disconnected : ListenerStatus
  | connected : ListenerStatus
  | listening : ListenerStatus
  | closed : ListenerStatus
deriving DecidableEq, Repr

/-- State of one agent inbox processor: lifecycle plus the envelopes its
handler has been invoked on. -/
structure AgentQueueState where
  status : ListenerStatus
  handled : List Message := []
deriving DecidableEq, Repr

/-- The inbound callback of `start_listening` (lines 99-109): while
listening, decode and hand the envelope to the handler; any failure is
caught and logged, and the subscription continues. -/
def agent_message_callback (s : AgentQueueState) (payload : List Char) :
    AgentQueueState :=
  if s.status = ListenerStatus.listening then
    match decode_message payload with
    | some m => { s with handled := s.handled ++ [m] }
    | none => s
  else s

/-- State of the router's all-messages subscription: lifecycle plus the
envelopes passed to the registered callback. -/
structure AllMessagesSubscriber where
  status : ListenerStatus
  delivered : List Message := []
deriving DecidableEq, Repr

/-- The callback installed by `subscribe_all_messages` (lines 215-221). -/
def subscribe_all_callback (s : AllMessagesSubscriber) (payload : List Char) :
    AllMessagesSubscriber :=
  if s.status = ListenerStatus.listening then
    match decode_message payload with
    | some m => { s with delivered := s.delivered ++ [m] }
    | none => s
  else s

/-- Viewer with its lifecycle state. -/
structure ViewerListener where
  status : ListenerStatus
  viewer : MessageViewer
deriving DecidableEq, Repr

/-- One delivery at the viewer listener (lines 267-280). -/
def viewer_listener_callback (l : ViewerListener) (payload : List Char) :
    ViewerListener :=
  if l.status = ListenerStatus.listening then
    { l with viewer := viewer_message_callback l.viewer payload }
  else l

/-- Recipients whose identity, beyond a leading reserved prefix, contains no
further occurrence of the prefix string; on these the replace-all stripping
coincides with removing only the leading prefix. -/
def good_recipient (to_user : String) : Prop :=
  startsWithAgent to_user = true → hasAgentOccur (to_user.data.drop 6) = false

/-! Proofs. Round-trip of the wire codec. -/

set_option maxRecDepth 20000

theorem mk_data (s : String) : String.mk s.data = s := rfl

theorem psb_q (rest : List Char) : parseStringBody (qchar :: rest) = some ([], rest) := by
  rw [parseStringBody.eq_def]
  simp

theorem psb_esc (d : Char) (rest : List Char) :
    parseStringBody (bslash :: d :: rest) =
      match parseStringBody rest with
      | some (s, rem) => some (d :: s, rem)
      | none => none := by
  rw [parseStringBody.eq_def]
  have : (bslash = qchar) = False := by decide
  simp [this]

theorem psb_lit (c : Char) (h1 : c ≠ qchar) (h2 : c ≠ bslash) (rest : List Char) :
    parseStringBody (c :: rest) =
      match parseStringBody rest with
      | some (s, rem) => some (c :: s, rem)
      | none => none := by
  rw [parseStringBody.eq_def]
  simp [h1, h2]

theorem parseStringBody_escape (l rem : List Char) :
    parseStringBody (escapeList l ++ qchar :: rem) = some (l, rem) := by
  induction l with
  | nil => simpa [escapeList] using psb_q rem
  | cons c t ih =>
    by_cases h : c = qchar ∨ c = bslash
    · have he : escapeList (c :: t) = bslash :: c :: escapeList t := by
        simp only [escapeList, List.flatMap_cons, escapeChar, if_pos h]
        rfl
      rw [he, List.cons_append, List.cons_append, psb_esc, ih]
    · push_neg at h
      have he : escapeList (c :: t) = c :: escapeList t := by
        simp only [escapeList, List.flatMap_cons, escapeChar]
        rw [if_neg (by tauto : ¬ (c = qchar ∨ c = bslash))]
        rfl
      rw [he, List.cons_append, psb_lit c h.1 h.2, ih]

theorem parsePrim_serialize (p : JPrim) (rem : List Char) :
    parsePrim (serializePrim p ++ rem) = some (p, rem) := by
  cases p with
  | str s =>
    have hs : serializePrim (JPrim.str s) ++ rem
        = qchar :: (escapeList s.data ++ qchar :: rem) := by
      simp [serializePrim]
    rw [hs, parsePrim.eq_def]
    simp [parseStringBody_escape, mk_data]
  | null =>
    have hn : (('n' : Char) = qchar) = False := by decide
    rw [show serializePrim JPrim.null ++ rem = 'n' :: 'u' :: 'l' :: 'l' :: rem from rfl]
    rw [parsePrim.eq_def]
    simp [hn]

theorem parseEntry_serialize (kv : String × JPrim) (rem : List Char) :
    parseEntry (serializeEntry kv ++ rem) = some (kv, rem) := by
  have hs : serializeEntry kv ++ rem
      = qchar :: (escapeList kv.fst.data ++ qchar :: (':' :: ' ' :: (serializePrim kv.snd ++ rem))) := by
    simp [serializeEntry]
  rw [hs, parseEntry.eq_def]
  simp [parseStringBody_escape, parsePrim_serialize, mk_data]

theorem serializeEntries_length_le (kvs : List (String × JPrim)) :
    kvs.length ≤ (serializeEntries kvs).length := by
  induction kvs with
  | nil => simp [serializeEntries]
  | cons kv rest ih =>
    cases rest with
    | nil => simp [serializeEntries, serializeEntry]
    | cons kv2 rest2 =>
      rw [show serializeEntries (kv :: kv2 :: rest2)
            = serializeEntry kv ++ ',' :: ' ' :: serializeEntries (kv2 :: rest2) from rfl]
      have h1 : 1 ≤ (serializeEntry kv).length := by simp [serializeEntry]
      simp only [List.length_append, List.length_cons] at ih ⊢
      omega

theorem parseEntriesAux_serialize (kvs : List (String × JPrim)) (hne : kvs ≠ [])
    (rem : List Char) :
    ∀ fuel : Nat, kvs.length ≤ fuel + 1 →
      parseEntriesAux fuel (serializeEntries kvs ++ rbrace :: rem) = some (kvs, rem) := by
  induction kvs with
  | nil => exact absurd rfl hne
  | cons kv rest ih =>
    intro fuel hf
    cases rest with
    | nil =>
      rw [show serializeEntries [kv] = serializeEntry kv from rfl]
      rw [parseEntriesAux.eq_def]
      rw [parseEntry_serialize kv (rbrace :: rem)]
      have hrb : (rbrace = ',') = False := by decide
      cases rem with
      | nil => simp
      | cons c2 rem2 => simp [hrb]
    | cons kv2 rest2 =>
      have hs : serializeEntries (kv :: kv2 :: rest2) ++ rbrace :: rem
          = serializeEntry kv
            ++ (',' :: ' ' :: (serializeEntries (kv2 :: rest2) ++ rbrace :: rem)) := by
        simp [serializeEntries]
      rw [hs, parseEntriesAux.eq_def]
      rw [parseEntry_serialize kv (',' :: ' ' :: (serializeEntries (kv2 :: rest2) ++ rbrace :: rem))]
      simp only [List.length_cons] at hf
      cases fuel with
      | zero => omega
      | succ fuel' =>
        have hrec := ih (by simp) fuel' (by simp only [List.length_cons]; omega)
        simp [hrec]

theorem parseObj_serialize (kvs : List (String × JPrim)) (rem : List Char) :
    parseObj (json_dumps (Json.obj kvs) ++ rem) = some (kvs, rem) := by
  have hshape : json_dumps (Json.obj kvs) ++ rem
      = lbrace :: (serializeEntries kvs ++ rbrace :: rem) := by
    simp [json_dumps]
  rw [hshape]
  cases kvs with
  | nil =>
    rw [parseObj.eq_def]
    simp [serializeEntries]
  | cons kv rest =>
    have hhead : ∃ tl, serializeEntries (kv :: rest) = qchar :: tl := by
      cases rest with
      | nil => exact ⟨_, rfl⟩
      | cons kv2 rest2 => exact ⟨_, rfl⟩
    obtain ⟨tl, htl⟩ := hhead
    have hq : (qchar = rbrace) = False := by decide
    have hlen : (kv :: rest).length ≤ (serializeEntries (kv :: rest) ++ rbrace :: rem).length + 1 := by
      have h1 := serializeEntries_length_le (kv :: rest)
      simp only [List.length_append, List.length_cons] at h1 ⊢
      omega
    rw [parseObj.eq_def]
    rw [htl]
    simp only [List.cons_append, if_pos rfl, hq, if_false]
    rw [← List.cons_append, ← htl]
    exact parseEntriesAux_serialize (kv :: rest) (by simp) rem _ (by
      have h1 := serializeEntries_length_le (kv :: rest)
      have h2 : (qchar :: tl).length = (serializeEntries (kv :: rest)).length := by rw [htl]
      simp only [List.length_cons, List.length_append] at h1 h2 ⊢
      omega)

theorem json_loads_dumps_obj (kvs : List (String × JPrim)) :
    json_loads (json_dumps (Json.obj kvs)) = some (Json.obj kvs) := by
  have h := parseObj_serialize kvs []
  rw [List.append_nil] at h
  have hshape : json_dumps (Json.obj kvs) = lbrace :: (serializeEntries kvs ++ [rbrace]) := by
    simp [json_dumps]
  rw [json_loads.eq_def]
  rw [hshape] at h ⊢
  simp [h]

theorem from_dict_to_dict (m : Message) : Message.from_dict m.to_dict = some m := by
  cases m with
  | mk i f t c ts mt th =>
    cases th with
    | none =>
      simp [Message.from_dict, Message.to_dict, lookupKey, messageFields, List.find?, List.all]
    | some tid =>
      simp [Message.from_dict, Message.to_dict, lookupKey, messageFields, List.find?, List.all]

/-! Distinctness and injectivity of the subject scheme, and behaviour of the
replace-all prefix stripping. -/

theorem string_ext {s t : String} (h : s.data = t.data) : s = t := by
  cases s
  cases t
  exact congrArg String.mk h

theorem inbox_subject_data (ns a : String) :
    (inbox_subject ns a).data
      = ns.data ++ ('.' :: 'a' :: 'g' :: 'e' :: 'n' :: 't' :: 's' :: '.'
          :: (a.data ++ ('.' :: 'i' :: 'n' :: 'b' :: 'o' :: 'x' :: []))) := by
  simp [inbox_subject, String.data_append]

theorem outbox_subject_data (ns a : String) :
    (outbox_subject ns a).data
      = ns.data ++ ('.' :: 'a' :: 'g' :: 'e' :: 'n' :: 't' :: 's' :: '.'
          :: (a.data ++ ('.' :: 'o' :: 'u' :: 't' :: 'b' :: 'o' :: 'x' :: []))) := by
  simp [outbox_subject, String.data_append]

theorem dm_subject_data (ns u : String) :
    (dm_subject ns u).data
      = ns.data ++ ('.' :: 'm' :: 'e' :: 's' :: 's' :: 'a' :: 'g' :: 'e' :: 's'
          :: '.' :: 'd' :: 'm' :: '.' :: u.data) := by
  simp [dm_subject, String.data_append]

theorem all_subject_data (ns : String) :
    (all_subject ns).data
      = ns.data ++ ('.' :: 'm' :: 'e' :: 's' :: 's' :: 'a' :: 'g' :: 'e' :: 's'
          :: '.' :: 'a' :: 'l' :: 'l' :: []) := by
  simp [all_subject, String.data_append]

theorem inbox_subject_inj (ns : String) {a b : String}
    (h : inbox_subject ns a = inbox_subject ns b) : a = b := by
  have hd := congrArg String.data h
  rw [inbox_subject_data, inbox_subject_data] at hd
  have h1 := List.append_cancel_left hd
  simp only [List.cons.injEq, true_and] at h1
  exact string_ext (List.append_cancel_right h1)

theorem outbox_subject_inj (ns : String) {a b : String}
    (h : outbox_subject ns a = outbox_subject ns b) : a = b := by
  have hd := congrArg String.data h
  rw [outbox_subject_data, outbox_subject_data] at hd
  have h1 := List.append_cancel_left hd
  simp only [List.cons.injEq, true_and] at h1
  exact string_ext (List.append_cancel_right h1)

theorem dm_subject_inj (ns : String) {a b : String}
    (h : dm_subject ns a = dm_subject ns b) : a = b := by
  have hd := congrArg String.data h
  rw [dm_subject_data, dm_subject_data] at hd
  have h1 := List.append_cancel_left hd
  simp only [List.cons.injEq, true_and] at h1
  exact string_ext h1

theorem inbox_ne_outbox (ns a b : String) : inbox_subject ns a ≠ outbox_subject ns b := by
  intro h
  have hd := congrArg String.data h
  rw [inbox_subject_data, outbox_subject_data] at hd
  have h1 := List.append_cancel_left hd
  simp only [List.cons.injEq, true_and] at h1
  have h2 := congrArg List.reverse h1
  simp [List.reverse_append] at h2

theorem inbox_ne_dm (ns a u : String) : inbox_subject ns a ≠ dm_subject ns u := by
  intro h
  have hd := congrArg String.data h
  rw [inbox_subject_data, dm_subject_data] at hd
  have h1 := List.append_cancel_left hd
  simp only [List.cons.injEq] at h1
  exact absurd h1.2.1 (by decide)

theorem outbox_ne_dm (ns a u : String) : outbox_subject ns a ≠ dm_subject ns u := by
  intro h
  have hd := congrArg String.data h
  rw [outbox_subject_data, dm_subject_data] at hd
  have h1 := List.append_cancel_left hd
  simp only [List.cons.injEq] at h1
  exact absurd h1.2.1 (by decide)

theorem inbox_ne_all (ns a : String) : inbox_subject ns a ≠ all_subject ns := by
  intro h
  have hd := congrArg String.data h
  rw [inbox_subject_data, all_subject_data] at hd
  have h1 := List.append_cancel_left hd
  simp only [List.cons.injEq] at h1
  exact absurd h1.2.1 (by decide)

theorem outbox_ne_all (ns a : String) : outbox_subject ns a ≠ all_subject ns := by
  intro h
  have hd := congrArg String.data h
  rw [outbox_subject_data, all_subject_data] at hd
  have h1 := List.append_cancel_left hd
  simp only [List.cons.injEq] at h1
  exact absurd h1.2.1 (by decide)

theorem dm_ne_all (ns u : String) : dm_subject ns u ≠ all_subject ns := by
  intro h
  have hd := congrArg String.data h
  rw [dm_subject_data, all_subject_data] at hd
  have h1 := List.append_cancel_left hd
  simp only [List.cons.injEq, true_and] at h1
  exact absurd h1.1 (by decide)

theorem take6_eq_agentChars_of_hasAgentOccur_head (c1 c2 c3 c4 c5 c6 : Char) (rest : List Char) :
    List.take 6 (c1 :: c2 :: c3 :: c4 :: c5 :: c6 :: rest)
      = c1 :: c2 :: c3 :: c4 :: c5 :: [c6] := by
  simp [List.take]

theorem replaceAgentList_no_occur :
    ∀ {l : List Char}, hasAgentOccur l = false → replaceAgentList l = l := by
  intro l
  induction l using replaceAgentList.induct with
  | case1 c1 c2 c3 c4 c5 c6 rest hcond ih =>
    intro h
    rw [hasAgentOccur] at h
    simp only [Bool.or_eq_false_iff, beq_eq_false_iff_ne] at h
    rw [take6_eq_agentChars_of_hasAgentOccur_head] at h
    exact absurd hcond h.1
  | case2 c1 c2 c3 c4 c5 c6 rest hcond ih =>
    intro h
    rw [hasAgentOccur] at h
    simp only [Bool.or_eq_false_iff] at h
    rw [replaceAgentList]
    rw [if_neg hcond]
    rw [ih h.2]
  | case3 =>
    intro _
    rfl
  | case4 c rest hshort ih =>
    intro h
    rw [hasAgentOccur] at h
    simp only [Bool.or_eq_false_iff] at h
    rw [replaceAgentList]
    · rw [ih h.2]
    · exact hshort

theorem replaceAgentList_prefix (l : List Char) :
    replaceAgentList (agentChars ++ l) = replaceAgentList l := by
  rw [show agentChars ++ l = 'a' :: 'g' :: 'e' :: 'n' :: 't' :: '_' :: l from rfl]
  rw [replaceAgentList]
  rw [if_pos (by rfl)]

theorem agent_prefixed_data (r : String) :
    ("agent_" ++ r).data = agentChars ++ r.data := by
  simp [String.data_append]
  rfl

theorem startsWithAgent_prefixed (r : String) : startsWithAgent ("agent_" ++ r) = true := by
  rw [startsWithAgent, agent_prefixed_data]
  rw [show (6 : Nat) = agentChars.length from rfl]
  rw [List.take_left]
  decide

theorem resolve_dest_prefixed (ns r : String) (h : hasAgentOccur r.data = false) :
    resolve_dest ns ("agent_" ++ r) = inbox_subject ns r := by
  rw [resolve_dest, if_pos (by rw [startsWithAgent_prefixed])]
  rw [agent_prefixed_data, replaceAgentList_prefix, replaceAgentList_no_occur h]

theorem resolve_dest_human (ns to_user : String) (h : startsWithAgent to_user = false) :
    resolve_dest ns to_user = dm_subject ns to_user := by
  rw [resolve_dest, if_neg (by rw [h]; exact Bool.false_ne_true)]

/-! Claim theorems. -/

theorem send_dm_run (fails : String → Bool) (r : MessageRouter) (ns ts H A C : String)
    (h1 : fails (inbox_subject ns A) = false) (h2 : fails (all_subject ns) = false) :
    send_dm fails r ns ts H A C
      = ({ message_history := r.message_history ++ [dm_message ts H A C] },
         [⟨inbox_subject ns A, encode_message (dm_message ts H A C)⟩,
          ⟨all_subject ns, encode_message (dm_message ts H A C)⟩], false) := by
  simp [send_dm, send_dm_effects, runEffects, h1, h2]

/-- C5. Codec round-trip: for every valid Envelope, decoding the JSON-parse
of the JSON-serialization of `Message.to_dict` through `Message.from_dict`
yields the Envelope back exactly. -/
theorem codec_round_trip (m : Message) :
    decode_message (encode_message m) = some m := by
  rw [encode_message, decode_message, json_loads_dumps_obj]
  exact from_dict_to_dict m

/-- C1. Routing correctness of `send_dm`: on a bus without failures the call
publishes exactly one envelope to the agent inbox topic and exactly one to
the global feed topic, both publishes carrying the identical envelope with
from = H, to = "agent_" ++ A and content = C. -/
theorem send_dm_routing_correct (r : MessageRouter) (ns ts H A C : String) :
    ∃ env : Message,
      (send_dm (fun _ => false) r ns ts H A C).2.1
        = [⟨inbox_subject ns A, encode_message env⟩, ⟨all_subject ns, encode_message env⟩]
      ∧ ((send_dm (fun _ => false) r ns ts H A C).2.1.filter
          (fun p => p.subject == inbox_subject ns A)).length = 1
      ∧ ((send_dm (fun _ => false) r ns ts H A C).2.1.filter
          (fun p => p.subject == all_subject ns)).length = 1
      ∧ env.from_user = H ∧ env.to_user = "agent_" ++ A ∧ env.content = C := by
  refine ⟨dm_message ts H A C, ?_, ?_, ?_, rfl, rfl, rfl⟩
  · rw [send_dm_run (fun _ => false) r ns ts H A C rfl rfl]
  · rw [send_dm_run (fun _ => false) r ns ts H A C rfl rfl]
    have hne : (all_subject ns == inbox_subject ns A) = false := by
      simp [beq_eq_false_iff_ne]
      exact fun h => inbox_ne_all ns A h.symm
    simp [List.filter, hne]
  · rw [send_dm_run (fun _ => false) r ns ts H A C rfl rfl]
    have hne : (inbox_subject ns A == all_subject ns) = false := by
      simp [beq_eq_false_iff_ne]
      exact inbox_ne_all ns A
    simp [List.filter, hne]

/-- C6. Conversation symmetry and soundness: `get_conversation` is symmetric
in its two arguments, every returned envelope has unordered endpoint pair
exactly the queried pair, and the result is a subsequence of the history, so
it appears in original insertion order. -/
theorem get_conversation_symmetric (r : MessageRouter) (X Y : String) :
    get_conversation r X Y = get_conversation r Y X
    ∧ (∀ m ∈ get_conversation r X Y,
        ({m.from_user, m.to_user} : Set String) = {X, Y})
    ∧ List.Sublist (get_conversation r X Y) r.message_history := by
  refine ⟨?_, ?_, List.filter_sublist r.message_history⟩
  · unfold get_conversation
    exact List.filter_congr (fun m _ => by rw [Bool.or_comm])
  · intro m hm
    rw [get_conversation, List.mem_filter] at hm
    have h := hm.2
    simp only [Bool.or_eq_true, Bool.and_eq_true, beq_iff_eq] at h
    rcases h with ⟨hf, ht⟩ | ⟨hf, ht⟩
    · rw [hf, ht]
    · rw [hf, ht]
      exact Set.pair_comm Y X

/-- C10. send_dm is not atomic: its three effects occur in the fixed order
inbox publish, history append, global-feed publish; when the global-feed
publish raises, the inbox publish has already reached the bus and the
envelope stays appended to the history — nothing is rolled back. -/
theorem send_dm_not_atomic (fails : String → Bool) (r : MessageRouter)
    (ns ts H A C : String)
    (hfeed : fails (all_subject ns) = true)
    (hinbox : fails (inbox_subject ns A) = false) :
    send_dm_effects ns ts H A C
      = [Effect.publish (inbox_subject ns A) (encode_message (dm_message ts H A C)),
         Effect.appendHistory (dm_message ts H A C),
         Effect.publish (all_subject ns) (encode_message (dm_message ts H A C))]
    ∧ send_dm fails r ns ts H A C
      = ({ message_history := r.message_history ++ [dm_message ts H A C] },
         [⟨inbox_subject ns A, encode_message (dm_message ts H A C)⟩], true) := by
  refine ⟨rfl, ?_⟩
  simp [send_dm, send_dm_effects, runEffects, hfeed, hinbox]

theorem send_dm_not_atomic_witness :
    ((fun s => s == all_subject "themultiverse") (all_subject "themultiverse") = true)
    ∧ ((fun s => s == all_subject "themultiverse") (inbox_subject "themultiverse" "sylvia") = false)
    ∧ (send_dm_effects "themultiverse" "1" "alice" "sylvia" "hi"
        = [Effect.publish (inbox_subject "themultiverse" "sylvia")
             (encode_message (dm_message "1" "alice" "sylvia" "hi")),
           Effect.appendHistory (dm_message "1" "alice" "sylvia" "hi"),
           Effect.publish (all_subject "themultiverse")
             (encode_message (dm_message "1" "alice" "sylvia" "hi"))]
        ∧ send_dm (fun s => s == all_subject "themultiverse") { message_history := [] }
            "themultiverse" "1" "alice" "sylvia" "hi"
          = ({ message_history := [dm_message "1" "alice" "sylvia" "hi"] },
             [⟨inbox_subject "themultiverse" "sylvia",
               encode_message (dm_message "1" "alice" "sylvia" "hi")⟩], true)) := by
  refine ⟨by decide, by decide, ?_⟩
  have h := send_dm_not_atomic (fun s => s == all_subject "themultiverse")
    { message_history := [] } "themultiverse" "1" "alice" "sylvia" "hi" (by decide) (by decide)
  simpa using h

/-- C4 fails on the code as stated: after two sequential sends from "alice"
to agent "sylvia" on an empty router, querying the conversation with the
bare names returns the empty list — the history stores the recipient
agent-prefixed, so the claimed length-2 result does not hold. -/
theorem get_conversation_bare_name_counterexample :
    get_conversation
        (send_dm (fun _ => false)
          (send_dm (fun _ => false) { message_history := [] }
            "themultiverse" "1" "alice" "sylvia" "m1").1
          "themultiverse" "2" "alice" "sylvia" "m2").1 "alice" "sylvia" = []
    ∧ ¬ (get_conversation
        (send_dm (fun _ => false)
          (send_dm (fun _ => false) { message_history := [] }
            "themultiverse" "1" "alice" "sylvia" "m1").1
          "themultiverse" "2" "alice" "sylvia" "m2").1 "alice" "sylvia").length = 2 := by
  constructor
  · decide
  · decide

/-- C4 amended: after two sequential sends from human H to agent A on an
empty router, the conversation queried with H and the agent-prefixed id
"agent_" ++ A has exactly the two envelopes, in call order. -/
theorem get_conversation_after_two_sends (ns ts1 ts2 H A c1 c2 : String) :
    get_conversation
        (send_dm (fun _ => false)
          (send_dm (fun _ => false) { message_history := [] } ns ts1 H A c1).1
          ns ts2 H A c2).1 H ("agent_" ++ A)
      = [dm_message ts1 H A c1, dm_message ts2 H A c2] := by
  rw [send_dm_run (fun _ => false) _ ns ts1 H A c1 rfl rfl]
  rw [send_dm_run (fun _ => false) _ ns ts2 H A c2 rfl rfl]
  simp [get_conversation, dm_message]

/-- C3 fails on the code: one `send_dm` publish pair is delivered to the
viewer under two different matching wildcard subscriptions, and the
accumulator then holds two entries with the same Envelope id — the viewer
does not de-duplicate. -/
theorem viewer_duplicate_counterexample :
    ¬ (((viewer_receive_all "themultiverse" { messages := [] }
          (send_dm (fun _ => false) { message_history := [] }
            "themultiverse" "1" "alice" "sylvia" "hello").2.1).messages.filter
          (fun m => m.id == "msg_1")).length ≤ 1) := by
  decide

theorem viewer_fold_messages (v : MessageViewer) (payloads : List (List Char)) :
    (payloads.foldl viewer_message_callback v).messages
      = v.messages ++ payloads.filterMap decode_message := by
  induction payloads generalizing v with
  | nil => simp
  | cons p rest ih =>
    rw [List.foldl_cons, ih]
    cases h : decode_message p with
    | none => simp [viewer_message_callback, h]
    | some m => simp [viewer_message_callback, h]

/-- C3 amended: the viewer appends one accumulator entry per delivered and
successfully decoded payload, in arrival order, duplicates included; a
publish is delivered once per matching subscription, so a logical send whose
subject matches two of the three overlapping patterns appears twice, once
per delivery, with the same Envelope id. -/
theorem viewer_accumulates_every_delivery (ns : String) (v : MessageViewer)
    (ps : List Publish) :
    (viewer_receive_all ns v ps).messages
      = v.messages ++ (ps.flatMap (viewer_deliveries ns)).filterMap decode_message := by
  induction ps generalizing v with
  | nil => simp [viewer_receive_all]
  | cons p rest ih =>
    rw [viewer_receive_all, List.foldl_cons]
    rw [show List.foldl (viewer_receive_publish ns) (viewer_receive_publish ns v p) rest
          = viewer_receive_all ns (viewer_receive_publish ns v p) rest from rfl]
    rw [ih, viewer_receive_publish, viewer_fold_messages]
    simp [List.filterMap_append]

/-- C7. Decode resilience: for each of the three subscribed listeners — the
agent inbox processor, the router's all-messages subscriber and the viewer —
a malformed payload is dropped without any state change (so the listener
stays in the Listening state, nothing is appended and no handler runs), and
a subsequent well-formed payload is then processed normally. -/
theorem decode_resilience (bad good : List Char) (m : Message)
    (s : AgentQueueState) (t : AllMessagesSubscriber) (l : ViewerListener)
    (hbad : decode_message bad = none) (hgood : decode_message good = some m)
    (hs : s.status = ListenerStatus.listening)
    (ht : t.status = ListenerStatus.listening)
    (hl : l.status = ListenerStatus.listening) :
    agent_message_callback s bad = s
    ∧ agent_message_callback (agent_message_callback s bad) good
        = { s with handled := s.handled ++ [m] }
    ∧ subscribe_all_callback t bad = t
    ∧ subscribe_all_callback (subscribe_all_callback t bad) good
        = { t with delivered := t.delivered ++ [m] }
    ∧ viewer_listener_callback l bad = l
    ∧ viewer_listener_callback (viewer_listener_callback l bad) good
        = { l with viewer := { messages := l.viewer.messages ++ [m] } } := by
  have h1 : agent_message_callback s bad = s := by
    simp [agent_message_callback, hs, hbad]
  have h2 : subscribe_all_callback t bad = t := by
    simp [subscribe_all_callback, ht, hbad]
  have h3 : viewer_listener_callback l bad = l := by
    cases l with
    | mk st v =>
      simp only at hl
      simp [viewer_listener_callback, hl, viewer_message_callback, hbad]
  refine ⟨h1, ?_, h2, ?_, h3, ?_⟩
  · rw [h1]
    simp [agent_message_callback, hs, hgood]
  · rw [h2]
    simp [subscribe_all_callback, ht, hgood]
  · rw [h3]
    simp [viewer_listener_callback, hl, viewer_message_callback, hgood]

theorem decode_resilience_witness :
    decode_message ("not json".data) = none
    ∧ decode_message (encode_message (dm_message "1" "alice" "sylvia" "hello"))
        = some (dm_message "1" "alice" "sylvia" "hello")
    ∧ (agent_message_callback
          { status := ListenerStatus.listening, handled := [] } ("not json".data)
        = { status := ListenerStatus.listening, handled := [] }
      ∧ agent_message_callback
          (agent_message_callback
            { status := ListenerStatus.listening, handled := [] } ("not json".data))
          (encode_message (dm_message "1" "alice" "sylvia" "hello"))
        = { status := ListenerStatus.listening,
            handled := [dm_message "1" "alice" "sylvia" "hello"] }
      ∧ subscribe_all_callback
          { status := ListenerStatus.listening, delivered := [] } ("not json".data)
        = { status := ListenerStatus.listening, delivered := [] }
      ∧ subscribe_all_callback
          (subscribe_all_callback
            { status := ListenerStatus.listening, delivered := [] } ("not json".data))
          (encode_message (dm_message "1" "alice" "sylvia" "hello"))
        = { status := ListenerStatus.listening,
            delivered := [dm_message "1" "alice" "sylvia" "hello"] }
      ∧ viewer_listener_callback
          { status := ListenerStatus.listening, viewer := { messages := [] } }
          ("not json".data)
        = { status := ListenerStatus.listening, viewer := { messages := [] } }
      ∧ viewer_listener_callback
          (viewer_listener_callback
            { status := ListenerStatus.listening, viewer := { messages := [] } }
            ("not json".data))
          (encode_message (dm_message "1" "alice" "sylvia" "hello"))
        = { status := ListenerStatus.listening,
            viewer := { messages := [dm_message "1" "alice" "sylvia" "hello"] } }) := by
  refine ⟨by decide, by decide, ?_⟩
  have h := decode_resilience ("not json".data)
    (encode_message (dm_message "1" "alice" "sylvia" "hello"))
    (dm_message "1" "alice" "sylvia" "hello")
    { status := ListenerStatus.listening, handled := [] }
    { status := ListenerStatus.listening, delivered := [] }
    { status := ListenerStatus.listening, viewer := { messages := [] } }
    (by decide) (by decide) rfl rfl rfl
  simpa using h

/-- C8 fails on the code as stated: for the recipient "agent_agent_sylvia",
whose inbox under the prefix-stripped reading is the topic of agent
"agent_sylvia", the code's replace-all stripping publishes to the inbox of
"sylvia" instead; the code's resolution and the prefix-stripped resolution
disagree at this input. -/
theorem send_message_dest_counterexample :
    ((send_message "themultiverse" "roy" "1" "agent_agent_sylvia" "hi" none).2.map
        Publish.subject
      = ["themultiverse.agents.sylvia.inbox", "themultiverse.agents.roy.outbox"])
    ∧ resolve_dest "themultiverse" "agent_agent_sylvia"
        ≠ resolve_dest_strip_prefix "themultiverse" "agent_agent_sylvia" := by
  constructor
  · decide
  · decide

/-- C8 amended: `send_message` builds one envelope whose sender is the
agent-prefixed persona and performs exactly two publishes of that same
envelope: the first to the resolved destination — for a recipient carrying
the agent prefix, the inbox topic of the recipient with every occurrence of
"agent_" removed, which for an occurrence-free remainder r is exactly the
inbox of r; for a recipient without the prefix, the human-directed topic —
and the second, unconditionally, to the persona's own outbox topic. -/
theorem send_message_spec (ns P ts r to_h c : String) (th : Option String)
    (hocc : hasAgentOccur r.data = false)
    (hh : startsWithAgent to_h = false) :
    send_message ns P ts ("agent_" ++ r) c th
      = ({ id := "msg_" ++ ts, from_user := "agent_" ++ P, to_user := "agent_" ++ r,
           content := c, timestamp := ts, thread_id := th },
         [⟨inbox_subject ns r,
           encode_message
             { id := "msg_" ++ ts, from_user := "agent_" ++ P, to_user := "agent_" ++ r,
               content := c, timestamp := ts, thread_id := th }⟩,
          ⟨outbox_subject ns P,
           encode_message
             { id := "msg_" ++ ts, from_user := "agent_" ++ P, to_user := "agent_" ++ r,
               content := c, timestamp := ts, thread_id := th }⟩])
    ∧ send_message ns P ts to_h c th
      = ({ id := "msg_" ++ ts, from_user := "agent_" ++ P, to_user := to_h,
           content := c, timestamp := ts, thread_id := th },
         [⟨dm_subject ns to_h,
           encode_message
             { id := "msg_" ++ ts, from_user := "agent_" ++ P, to_user := to_h,
               content := c, timestamp := ts, thread_id := th }⟩,
          ⟨outbox_subject ns P,
           encode_message
             { id := "msg_" ++ ts, from_user := "agent_" ++ P, to_user := to_h,
               content := c, timestamp := ts, thread_id := th }⟩]) := by
  constructor
  · rw [send_message]
    rw [resolve_dest_prefixed ns r hocc]
  · rw [send_message]
    rw [resolve_dest_human ns to_h hh]

theorem send_message_spec_witness :
    hasAgentOccur ("sylvia" : String).data = false
    ∧ startsWithAgent "bob" = false
    ∧ (send_message "themultiverse" "roy" "1" ("agent_" ++ "sylvia") "hi" none
        = ({ id := "msg_" ++ "1", from_user := "agent_" ++ "roy",
             to_user := "agent_" ++ "sylvia", content := "hi", timestamp := "1",
             thread_id := none },
           [⟨inbox_subject "themultiverse" "sylvia",
             encode_message
               { id := "msg_" ++ "1", from_user := "agent_" ++ "roy",
                 to_user := "agent_" ++ "sylvia", content := "hi", timestamp := "1",
                 thread_id := none }⟩,
            ⟨outbox_subject "themultiverse" "roy",
             encode_message
               { id := "msg_" ++ "1", from_user := "agent_" ++ "roy",
                 to_user := "agent_" ++ "sylvia", content := "hi", timestamp := "1",
                 thread_id := none }⟩])
      ∧ send_message "themultiverse" "roy" "1" "bob" "hi" none
        = ({ id := "msg_" ++ "1", from_user := "agent_" ++ "roy", to_user := "bob",
             content := "hi", timestamp := "1", thread_id := none },
           [⟨dm_subject "themultiverse" "bob",
             encode_message
               { id := "msg_" ++ "1", from_user := "agent_" ++ "roy", to_user := "bob",
                 content := "hi", timestamp := "1", thread_id := none }⟩,
            ⟨outbox_subject "themultiverse" "roy",
             encode_message
               { id := "msg_" ++ "1", from_user := "agent_" ++ "roy", to_user := "bob",
                 content := "hi", timestamp := "1", thread_id := none }⟩])) :=
  ⟨by decide, by decide,
   send_message_spec "themultiverse" "roy" "1" "sylvia" "bob" "hi" none
     (by decide) (by decide)⟩

/-- C9 fails on the code as stated: the two distinct recipient identities
"agent_sylvia" and "agent_agent_sylvia" resolve to the same destination
topic, because the replace-all stripping removes the inner occurrence of the
prefix as well. -/
theorem subject_collision_counterexample :
    resolve_dest "themultiverse" "agent_sylvia"
      = resolve_dest "themultiverse" "agent_agent_sylvia"
    ∧ ("agent_sylvia" : String) ≠ "agent_agent_sylvia" := by
  constructor
  · decide
  · decide

/-- C9 amended: within one namespace the subject scheme itself is
collision-free — inbox, outbox and human-directed topics are injective in
the entity id and pairwise distinct, and none equals the global feed — and
two distinct recipient identities passed to `send_message` resolve to
distinct destination topics provided neither contains "agent_" beyond a
leading prefix; recipients with a further embedded occurrence can collide,
as the counterexample shows. -/
theorem subject_scheme_injective (ns : String) :
    (∀ a b : String, inbox_subject ns a = inbox_subject ns b → a = b)
    ∧ (∀ a b : String, outbox_subject ns a = outbox_subject ns b → a = b)
    ∧ (∀ u1 u2 : String, dm_subject ns u1 = dm_subject ns u2 → u1 = u2)
    ∧ (∀ a b : String, inbox_subject ns a ≠ outbox_subject ns b)
    ∧ (∀ a u : String, inbox_subject ns a ≠ dm_subject ns u)
    ∧ (∀ a u : String, outbox_subject ns a ≠ dm_subject ns u)
    ∧ (∀ a : String, inbox_subject ns a ≠ all_subject ns)
    ∧ (∀ a : String, outbox_subject ns a ≠ all_subject ns)
    ∧ (∀ u : String, dm_subject ns u ≠ all_subject ns)
    ∧ (∀ t1 t2 : String, good_recipient t1 → good_recipient t2 →
        resolve_dest ns t1 = resolve_dest ns t2 → t1 = t2) := by
  refine ⟨fun a b => inbox_subject_inj ns, fun a b => outbox_subject_inj ns,
    fun u1 u2 => dm_subject_inj ns, inbox_ne_outbox ns, inbox_ne_dm ns,
    outbox_ne_dm ns, inbox_ne_all ns, outbox_ne_all ns, dm_ne_all ns, ?_⟩
  intro t1 t2 hg1 hg2 heq
  cases hs1 : startsWithAgent t1 with
  | true =>
    have hsplit1 : t1.data = agentChars ++ t1.data.drop 6 := by
      have htake : t1.data.take 6 = agentChars := by
        have := hs1
        rw [startsWithAgent] at this
        exact beq_iff_eq.mp this
      conv_lhs => rw [← List.take_append_drop 6 t1.data]
      rw [htake]
    have ht1 : t1 = "agent_" ++ String.mk (t1.data.drop 6) := by
      apply string_ext
      rw [agent_prefixed_data]
      exact hsplit1
    have hr1 : resolve_dest ns t1 = inbox_subject ns (String.mk (t1.data.drop 6)) := by
      rw [ht1]
      exact resolve_dest_prefixed ns (String.mk (t1.data.drop 6)) (hg1 hs1)
    cases hs2 : startsWithAgent t2 with
    | true =>
      have hsplit2 : t2.data = agentChars ++ t2.data.drop 6 := by
        have htake : t2.data.take 6 = agentChars := by
          have := hs2
          rw [startsWithAgent] at this
          exact beq_iff_eq.mp this
        conv_lhs => rw [← List.take_append_drop 6 t2.data]
        rw [htake]
      have ht2 : t2 = "agent_" ++ String.mk (t2.data.drop 6) := by
        apply string_ext
        rw [agent_prefixed_data]
        exact hsplit2
      have hr2 : resolve_dest ns t2 = inbox_subject ns (String.mk (t2.data.drop 6)) := by
        rw [ht2]
        exact resolve_dest_prefixed ns (String.mk (t2.data.drop 6)) (hg2 hs2)
      rw [hr1, hr2] at heq
      have := inbox_subject_inj ns heq
      rw [ht1, ht2, this]
    | false =>
      rw [hr1, resolve_dest_human ns t2 hs2] at heq
      exact absurd heq (inbox_ne_dm ns _ t2)
  | false =>
    cases hs2 : startsWithAgent t2 with
    | true =>
      have hsplit2 : t2.data = agentChars ++ t2.data.drop 6 := by
        have htake : t2.data.take 6 = agentChars := by
          have := hs2
          rw [startsWithAgent] at this
          exact beq_iff_eq.mp this
        conv_lhs => rw [← List.take_append_drop 6 t2.data]
        rw [htake]
      have ht2 : t2 = "agent_" ++ String.mk (t2.data.drop 6) := by
        apply string_ext
        rw [agent_prefixed_data]
        exact hsplit2
      have hr2 : resolve_dest ns t2 = inbox_subject ns (String.mk (t2.data.drop 6)) := by
        rw [ht2]
        exact resolve_dest_prefixed ns (String.mk (t2.data.drop 6)) (hg2 hs2)
      rw [resolve_dest_human ns t1 hs1, hr2] at heq
      exact absurd heq.symm (inbox_ne_dm ns _ t1)
    | false =>
      rw [resolve_dest_human ns t1 hs1, resolve_dest_human ns t2 hs2] at heq
      exact dm_subject_inj ns heq

theorem subject_scheme_injective_witness :
    good_recipient "agent_sylvia" ∧ good_recipient "bob"
    ∧ ("agent_sylvia" : String) = "agent_sylvia" :=
  ⟨fun _ => by decide, fun _ => by decide,
   (subject_scheme_injective "themultiverse").2.2.2.2.2.2.2.2.2
     "agent_sylvia" "agent_sylvia" (fun _ => by decide) (fun _ => by decide) rfl⟩

theorem default_reply_from_user (ns P tsv : String) (m : Message) :
    (default_reply ns P tsv m).1.from_user = "agent_" ++ P := rfl

theorem default_reply_to_user (ns P tsv : String) (m : Message) :
    (default_reply ns P tsv m).1.to_user = m.from_user := rfl

theorem echo_chain_from_user (ns a b : String) (ts : Nat → String) (m0 : Message)
    (h0 : m0.from_user = "agent_" ++ a) :
    ∀ n, (echo_chain ns a b ts m0 n).from_user
      = "agent_" ++ (if n % 2 = 0 then a else b) := by
  intro n
  cases n with
  | zero => simpa using h0
  | succ k =>
    rw [echo_chain, default_reply_from_user]
    congr 1
    rcases Nat.mod_two_eq_zero_or_one k with h | h
    · have h1 : ¬ ((k + 1) % 2 = 0) := by omega
      rw [if_pos h, if_neg h1]
    · have h1 : (k + 1) % 2 = 0 := by omega
      have h2 : ¬ (k % 2 = 0) := by omega
      rw [if_neg h2, if_pos h1]

/-- C2 is the intended behaviour but the code violates it: with two agents
running the default echo handler and addressed at each other, every link of
the reply chain is again routed to the inbox of the other listening echo
agent, so a further automatic reply is generated at every hop — the chain
never terminates and no depth or rate guard exists anywhere in the code. -/
theorem echo_loop_unbounded (ns a b : String) (ts : Nat → String) (m0 : Message)
    (n : Nat)
    (ha : hasAgentOccur a.data = false) (hb : hasAgentOccur b.data = false)
    (h0 : m0.from_user = "agent_" ++ a) :
    (echo_chain ns a b ts m0 (n + 1)).from_user
        = "agent_" ++ (if n % 2 = 0 then b else a)
    ∧ (echo_chain ns a b ts m0 (n + 1)).to_user
        = "agent_" ++ (if n % 2 = 0 then a else b)
    ∧ resolve_dest ns (echo_chain ns a b ts m0 (n + 1)).to_user
        = inbox_subject ns (if n % 2 = 0 then a else b) := by
  have hfrom := echo_chain_from_user ns a b ts m0 h0
  have hto : (echo_chain ns a b ts m0 (n + 1)).to_user
      = (echo_chain ns a b ts m0 n).from_user := rfl
  refine ⟨?_, ?_, ?_⟩
  · rw [hfrom (n + 1)]
    congr 1
    rcases Nat.mod_two_eq_zero_or_one n with h | h
    · have h1 : ¬ ((n + 1) % 2 = 0) := by omega
      rw [if_pos h, if_neg h1]
    · have h1 : (n + 1) % 2 = 0 := by omega
      have h2 : ¬ (n % 2 = 0) := by omega
      rw [if_neg h2, if_pos h1]
  · rw [hto, hfrom n]
  · rw [hto, hfrom n]
    rcases Nat.mod_two_eq_zero_or_one n with h | h
    · rw [if_pos h]
      exact resolve_dest_prefixed ns a ha
    · have h2 : ¬ (n % 2 = 0) := by omega
      rw [if_neg h2]
      exact resolve_dest_prefixed ns b hb

theorem echo_loop_unbounded_witness :
    hasAgentOccur ("sylvia" : String).data = false
    ∧ hasAgentOccur ("roy" : String).data = false
    ∧ ({ id := "m0", from_user := "agent_sylvia", to_user := "agent_roy",
         content := "hi", timestamp := "0" } : Message).from_user
        = "agent_" ++ "sylvia"
    ∧ ((echo_chain "themultiverse" "sylvia" "roy" (fun _ => "0")
          { id := "m0", from_user := "agent_sylvia", to_user := "agent_roy",
            content := "hi", timestamp := "0" } (2 + 1)).from_user
        = "agent_" ++ (if 2 % 2 = 0 then "roy" else "sylvia")
      ∧ (echo_chain "themultiverse" "sylvia" "roy" (fun _ => "0")
          { id := "m0", from_user := "agent_sylvia", to_user := "agent_roy",
            content := "hi", timestamp := "0" } (2 + 1)).to_user
        = "agent_" ++ (if 2 % 2 = 0 then "sylvia" else "roy")
      ∧ resolve_dest "themultiverse"
          (echo_chain "themultiverse" "sylvia" "roy" (fun _ => "0")
            { id := "m0", from_user := "agent_sylvia", to_user := "agent_roy",
              content := "hi", timestamp := "0" } (2 + 1)).to_user
        = inbox_subject "themultiverse" (if 2 % 2 = 0 then "sylvia" else "roy")) :=
  ⟨by decide, by decide, by decide,
   echo_loop_unbounded "themultiverse" "sylvia" "roy" (fun _ => "0")
     { id := "m0", from_user := "agent_sylvia", to_user := "agent_roy",
       content := "hi", timestamp := "0" } 2 (by decide) (by decide) (by decide)⟩

end AgentMessaging
